import Mathlib

/-!
Shallow embedding of `src/advanced-vector/vector.h` (template classes
`RawMemory<T>` and `Vector<T>`).

Two models are used.

* A value-level model `Vec` for the functional claims: the element type is a
  plain value type (`Nat`) whose copy/move never throws, so
  `ReplaceOrCopyData` is a pure transfer of the element sequence.  A `Vec`
  records the live element sequence (slots `[0, size)`) and the capacity of
  the owned `RawMemory` block; `size` is the length of the element list.

* A slot-level model (`Slot`, `VecS`) that tracks object lifetime in each
  storage slot (`raw` = never constructed, `live v` = constructed and holding
  value `v`, `dead` = constructed then destroyed) and a construction budget
  modelling a probe element type whose copy constructor throws on its
  (budget+1)-th construction.  This model is used for the exception-path
  claims about `Vector::Emplace` (growth path) and for the destructor
  bookkeeping of move assignment.
-/

namespace AdvancedVector

/-! ## Value-level model of `Vector<T>` -/

/-- `Vector<T>` state for a non-throwing value element type:
`elems` are the live elements in slots `[0, size_)` of `data_`,
`cap` is `data_.Capacity()`.  `size_` is `elems.length`. -/
structure Vec where
  elems : List Nat
  cap : Nat
deriving DecidableEq, Repr

/-- `Vector::Size()` : the live element count `size_`. -/
def Vec.size (v : Vec) : Nat := v.elems.length

/-- The container invariant `0 <= size_ <= data_.Capacity()` (slots
`[0, size_)` live, `[size_, capacity)` raw). -/
def Vec.wf (v : Vec) : Prop := v.size ≤ v.cap

instance (v : Vec) : Decidable v.wf := by unfold Vec.wf; infer_instance

/-- `Vector()` : default constructor, size 0, capacity 0. -/
def Vec.empty : Vec := ⟨[], 0⟩

/-- `Vector(size_t size)` : allocates capacity `n` and value-constructs `n`
elements (`Nat` value-constructs to 0). -/
def vecOfSize (n : Nat) : Vec := ⟨List.replicate n 0, n⟩

/-- `Vector(const Vector&)` : allocates capacity `other.Size()` and copies the
elements. -/
def copyCtor (other : Vec) : Vec := ⟨other.elems, other.size⟩

/-- `Vector(Vector&&)` : steals `other`'s storage (RawMemory move constructor
swaps with a default-constructed block), sets `other.size_ = 0`.
Returns (constructed vector, state `other` is left in). -/
def moveCtor (other : Vec) : Vec × Vec := (⟨other.elems, other.cap⟩, ⟨[], 0⟩)

/-- `Vector::operator[]` : unchecked indexed access `data_[index]`
(0 as the junk value for an out-of-range read, which the code asserts away). -/
def Vec.get (v : Vec) (i : Nat) : Nat := v.elems.getD i 0

/-- `Vector::EmplaceBack` (vector.h lines 185-198): if `size_ == Capacity()`
allocate `size_ == 0 ? 1 : size_ * 2`, construct the new element at offset
`size_` of the new block, transfer the old elements (`ReplaceOrCopyData`),
swap blocks; otherwise construct in place at offset `size_`.  Then `++size_`.
Returns the vector together with the index the returned reference points at. -/
def emplaceBack (v : Vec) (x : Nat) : Vec × Nat :=
  if v.size = v.cap then
    let newCap := if v.size = 0 then 1 else v.size * 2
    (⟨v.elems ++ [x], newCap⟩, v.size)
  else
    (⟨v.elems ++ [x], v.cap⟩, v.size)

/-- `Vector::PushBack` : delegates to `EmplaceBack`. -/
def pushBack (v : Vec) (x : Nat) : Vec := (emplaceBack v x).1

/-- A sequence of `PushBack`/`EmplaceBack` calls starting from the empty
vector. -/
def pushSeq (xs : List Nat) : Vec := xs.foldl pushBack Vec.empty

/-- `Vector::Reserve` (vector.h lines 142-148): no-op unless
`new_capacity > Capacity()`; otherwise allocate exactly `new_capacity`,
transfer all live elements, swap blocks. -/
def reserve (v : Vec) (k : Nat) : Vec :=
  if k > v.cap then ⟨v.elems, k⟩ else v

/-- `Vector::Resize` (vector.h lines 150-161): equal size is a no-op; a
smaller size destroys the trailing `size_ - new_size` elements; a larger size
reserves `new_size` then value-constructs the new trailing slots. -/
def resize (v : Vec) (k : Nat) : Vec :=
  if k = v.size then v
  else if k < v.size then ⟨v.elems.take k, v.cap⟩
  else
    let v1 := reserve v k
    ⟨v1.elems ++ List.replicate (k - v.size) 0, v1.cap⟩

/-- `Vector::PopBack` : destroys `data_[--size_]`. -/
def popBack (v : Vec) : Vec := ⟨v.elems.take (v.size - 1), v.cap⟩

/-- `Vector::Emplace(pos, args...)` (vector.h lines 200-236) at element index
`p = pos - begin()`.
`pos == end()` delegates to `EmplaceBack`.  With spare capacity, the value is
built in a temporary, the last element is move-constructed into the end slot,
`[p, size_-1)` is shifted one slot right by `std::move_backward`, and the
temporary is move-assigned into slot `p`: the sequence becomes
`take p ++ x :: drop p`.  At capacity, a block of size
`size_ == 0 ? 1 : size_ * 2` is allocated, the value is constructed at offset
`p`, the prefix `[0, p)` and suffix `[p, size_)` are transferred around it,
and blocks are swapped, yielding the same sequence.  Then `++size_`.
Returns the vector together with the index of the returned iterator. -/
def emplace (v : Vec) (p : Nat) (x : Nat) : Vec × Nat :=
  if p = v.size then emplaceBack v x
  else if v.size ≠ v.cap then
    (⟨v.elems.take p ++ x :: v.elems.drop p, v.cap⟩, p)
  else
    let newCap := if v.size = 0 then 1 else v.size * 2
    (⟨v.elems.take p ++ x :: v.elems.drop p, newCap⟩, p)

/-- `Vector::Insert(pos, value)` : delegates to `Emplace`. -/
def insert (v : Vec) (p : Nat) (x : Nat) : Vec × Nat := emplace v p x

/-- `Vector::Erase(pos)` (vector.h lines 245-255) at element index
`p = pos - begin()`.  `pos == end()` just calls `PopBack` and returns `end()`;
otherwise `[p+1, size_)` is shifted one slot left by `std::move` and the last
slot is popped; the returned iterator is `data_ + p`. -/
def erase (v : Vec) (p : Nat) : Vec × Nat :=
  if p = v.size then (popBack v, v.size - 1)
  else (⟨v.elems.take p ++ v.elems.drop (p + 1), v.cap⟩, p)

/-- `Vector::Swap` : exchanges `data_` and `size_`. -/
def swapVec (a b : Vec) : Vec × Vec := (b, a)

/-- Body of `Vector::operator=(const Vector&)` (vector.h lines 117-132) in the
`this != &other` case.  If `other.size_ > Capacity()`: copy-construct a
temporary from `other` and swap it in (capacity becomes `other.Size()`).
Otherwise copy-assign over the first `min(other.size_, size_)` slots, then
either `uninitialized_copy_n` the remaining `other.size_ - size_` new elements
or `destroy_n` the excess `size_ - other.size_` trailing ones; capacity is
untouched. -/
def copyAssignBody (a b : Vec) : Vec :=
  if b.size > a.cap then
    copyCtor b
  else
    let m := min b.size a.size
    let assigned := b.elems.take m ++ a.elems.drop m
    if b.size > a.size then
      ⟨assigned ++ b.elems.drop a.size, a.cap⟩
    else
      ⟨assigned.take b.size, a.cap⟩

/-- Body of `Vector::operator=(Vector&&)` (vector.h lines 134-140) in the
`this != &other` case, at the value level: `data_ = std::move(other.data_)`
swaps the raw blocks (so `other` keeps `a`'s old block and capacity) and
`size_ = std::exchange(other.size_, 0)`.  Returns (new `a`, new `other`). -/
def moveAssignBody (a b : Vec) : Vec × Vec :=
  (⟨b.elems, b.cap⟩, ⟨[], a.cap⟩)

/-- `Vector::operator=(const Vector&)` with the aliasing check: the two
operands live at addresses `dst` and `src` of a two-cell store, and the
`this != &other` guard compares the addresses. -/
def copyAssignOp (s : Fin 2 → Vec) (dst src : Fin 2) : Fin 2 → Vec :=
  if dst = src then s
  else Function.update s dst (copyAssignBody (s dst) (s src))

/-- `Vector::operator=(Vector&&)` with the aliasing check, on a two-cell
store. -/
def moveAssignOp (s : Fin 2 → Vec) (dst src : Fin 2) : Fin 2 → Vec :=
  if dst = src then s
  else
    let r := moveAssignBody (s dst) (s src)
    Function.update (Function.update s dst r.1) src r.2

/-! ## Slot-level model with object lifetime and a throwing probe type -/

/-- Lifetime state of one storage slot: never constructed, holding a live
object with value `v`, or constructed and later destroyed. -/
inductive Slot where
  | raw : Slot
  | live : Nat → Slot
  | dead : Slot
deriving DecidableEq, Repr

/-- `Vector<T>` state at the slot level: `slots` are the slots of the owned
`RawMemory` block (its length is the capacity), `size` is `size_`. -/
structure VecS where
  slots : List Slot
  size : Nat
deriving DecidableEq, Repr

/-- `Capacity()` in the slot model: the length of the owned block. -/
def VecS.cap (v : VecS) : Nat := v.slots.length

/-- The value stored in a (live) slot; reading anything else is UB in the
code and returns the junk value 0 here. -/
def slotVal (buf : List Slot) (i : Nat) : Nat :=
  match buf.getD i Slot.raw with
  | Slot.live x => x
  | _ => 0

/-- `std::destroy_n(buf + start, n)` : runs the destructor on slots
`[start, start + n)`. -/
def destroyN (buf : List Slot) (start n : Nat) : List Slot :=
  match n with
  | 0 => buf
  | Nat.succ m => destroyN (buf.set start Slot.dead) (start + 1) m

/-- `std::uninitialized_copy_n(src + s0, n, dst + d0)` for the probe element
type whose copy constructor throws once `budget` successful constructions
have been performed.  Returns the destination slots, the remaining budget,
and whether an exception escaped.  On an exception, the elements this call
already constructed are destroyed again (the standard guarantee of
`uninitialized_copy_n`). -/
def uninitCopyN (src : List Slot) (s0 n : Nat) (dst : List Slot) (d0 : Nat)
    (budget : Nat) : List Slot × Nat × Bool :=
  match n with
  | 0 => (dst, budget, false)
  | Nat.succ m =>
    if budget = 0 then (dst, 0, true)
    else
      let dst1 := dst.set d0 (Slot.live (slotVal src s0))
      let r := uninitCopyN src (s0 + 1) m dst1 (d0 + 1) (budget - 1)
      if r.2.2 then (r.1.set d0 Slot.dead, r.2.1, true) else r

/-- `Vector::ReplaceOrCopyData(old + o0, n, new_it + d0)` (vector.h lines
307-314) for the throwing probe type: such a type is not nothrow-move
-constructible and is copy-constructible, so the `uninitialized_copy_n`
branch is taken, followed on success by `std::destroy_n(old + o0, n)`.
Returns (old slots, destination slots, remaining budget, exception escaped). -/
def replaceOrCopyData (old : List Slot) (o0 n : Nat) (dst : List Slot)
    (d0 : Nat) (budget : Nat) : List Slot × List Slot × Nat × Bool :=
  let r := uninitCopyN old o0 n dst d0 budget
  if r.2.2 then (old, r.1, r.2.1, true)
  else (destroyN old o0 n, r.1, r.2.1, false)

/-- Observable outcome of the growth path of `Vector::Emplace`. -/
structure EmplaceOutcome where
  /-- Whether an exception propagated out of `Emplace` to the caller. -/
  threw : Bool
  /-- The slots of the block `data_` owns when control leaves `Emplace`. -/
  dataSlots : List Slot
  /-- `size_` when control leaves `Emplace`. -/
  size : Nat
  /-- The slots of the block released when the local `new_data` (after the
  swap: the original block) is destroyed at scope exit; any slot still
  `live` here is leaked (its destructor never runs). -/
  released : List Slot
deriving DecidableEq, Repr

/-- `Capacity()` on leaving `Emplace`. -/
def EmplaceOutcome.cap (o : EmplaceOutcome) : Nat := o.dataSlots.length

/-- The growth path of `Vector::Emplace` (vector.h lines 214-235, the
`size_ == Capacity()` branch for `pos != end()`), for the throwing probe
type, inserting value `x` at index `idx` with construction budget `budget`:

1. allocate `new_data` of capacity `size_ == 0 ? 1 : size_ * 2`;
2. `new (new_data + idx) T(args...)` — one construction (may throw; the
   fresh block is simply released and the exception propagates);
3. `try { ReplaceOrCopyData(data_.GetAddress(), idx, new_data.GetAddress()) }
   catch (...) { new_data[idx].~T(); throw; }`;
4. `try { ReplaceOrCopyData(data_ + idx, size_ - idx, new_data + (idx + 1)) }
   catch (...) { std::destroy_n(new_data.GetAddress(), idx + 1); }` — note:
   the source has no `throw;` in this handler, so control falls through;
5. `data_.Swap(new_data); ++size_;` and the local `new_data` (now the old
   block) is released at scope exit. -/
def emplaceGrow (v : VecS) (idx : Nat) (x : Nat) (budget : Nat) :
    EmplaceOutcome :=
  let newCap := if v.size = 0 then 1 else v.size * 2
  let newBuf : List Slot := List.replicate newCap Slot.raw
  if budget = 0 then
    { threw := true, dataSlots := v.slots, size := v.size, released := newBuf }
  else
    let newBuf1 := newBuf.set idx (Slot.live x)
    let r1 := replaceOrCopyData v.slots 0 idx newBuf1 0 (budget - 1)
    if r1.2.2.2 then
      { threw := true, dataSlots := r1.1, size := v.size,
        released := r1.2.1.set idx Slot.dead }
    else
      let r2 := replaceOrCopyData r1.1 idx (v.size - idx) r1.2.1 (idx + 1)
        r1.2.2.1
      if r2.2.2.2 then
        { threw := false, dataSlots := destroyN r2.2.1 0 (idx + 1),
          size := v.size + 1, released := r2.1 }
      else
        { threw := false, dataSlots := r2.2.1, size := v.size + 1,
          released := r2.1 }

/-- Body of `Vector::operator=(Vector&&)` at the slot level (`this != &other`):
`data_ = std::move(other.data_)` goes through `RawMemory::operator=(RawMemory&&)`
(vector.h lines 28-31), which is `Swap(other)` — the two blocks are
exchanged — and then `size_ = std::exchange(other.size_, 0)`. -/
def moveAssignS (a b : VecS) : VecS × VecS :=
  (⟨b.slots, b.size⟩, ⟨a.slots, 0⟩)

/-- `Vector::~Vector()` : `std::destroy_n(data_.GetAddress(), size_)`; the
result is the slot states of the block at the moment `RawMemory` releases it.
A slot still `live` here is leaked. -/
def vecDestruct (v : VecS) : List Slot := destroyN v.slots 0 v.size

/-! ## Helper lemmas -/

theorem emplaceBack_elems (v : Vec) (x : Nat) :
    (emplaceBack v x).1.elems = v.elems ++ [x] := by
  unfold emplaceBack
  split <;> rfl

theorem emplaceBack_idx (v : Vec) (x : Nat) : (emplaceBack v x).2 = v.size := by
  unfold emplaceBack
  split <;> rfl

theorem foldl_pushBack_elems (xs : List Nat) (v : Vec) :
    (xs.foldl pushBack v).elems = v.elems ++ xs := by
  induction xs generalizing v with
  | nil => simp
  | cons x xs ih =>
      simp only [List.foldl_cons, ih, pushBack, emplaceBack_elems,
        List.append_assoc, List.singleton_append]

theorem copyAssignBody_elems (a b : Vec) :
    (copyAssignBody a b).elems = b.elems := by
  unfold copyAssignBody copyCtor
  split
  · rfl
  · rename_i hle
    split
    · rename_i hgt
      have hm : b.elems.length ⊓ a.elems.length = a.elems.length :=
        Nat.min_eq_right (Nat.le_of_lt hgt)
      simp only [Vec.size, hm, List.drop_length, List.append_nil]
      exact List.take_append_drop _ _
    · rename_i hng
      have hm : b.elems.length ⊓ a.elems.length = b.elems.length :=
        Nat.min_eq_left (Nat.le_of_not_lt hng)
      simp only [Vec.size, hm, List.take_length]
      exact List.take_left _ _

theorem copyAssignBody_cap (a b : Vec) :
    (copyAssignBody a b).cap = if a.cap < b.size then b.size else a.cap := by
  unfold copyAssignBody copyCtor
  split
  · rfl
  · split <;> rfl

theorem copyAssignBody_size (a b : Vec) :
    (copyAssignBody a b).size = b.size := by
  simp only [Vec.size, copyAssignBody_elems]

theorem emplace_elems (v : Vec) (p x : Nat) (hp : p ≤ v.size) :
    (emplace v p x).1.elems = v.elems.take p ++ x :: v.elems.drop p := by
  unfold emplace
  split
  · rename_i h
    subst h
    simp [emplaceBack_elems, Vec.size]
  · split <;> rfl

theorem emplace_idx (v : Vec) (p x : Nat) : (emplace v p x).2 = p := by
  unfold emplace
  split
  · rename_i h
    rw [emplaceBack_idx, h]
  · split <;> rfl

theorem emplace_size (v : Vec) (p x : Nat) (hp : p ≤ v.size) :
    (emplace v p x).1.size = v.size + 1 := by
  have h := emplace_elems v p x hp
  simp only [Vec.size] at *
  rw [h]
  simp [List.length_append, List.length_take, List.length_drop]
  omega

theorem take_cons_drop_ext (l : List Nat) (p x : Nat) (hp : p ≤ l.length) :
    (l.take p ++ x :: l.drop p).take p = l.take p ∧
    (l.take p ++ x :: l.drop p).drop (p + 1) = l.drop p := by
  have ht : (l.take p).length = p := by
    simp [List.length_take, Nat.min_eq_left hp]
  constructor
  · exact List.take_left' ht
  · rw [List.append_cons]
    refine List.drop_left' ?_
    simp [List.length_append, ht]

/-! ## Invariant preservation helpers -/

theorem emplaceBack_cap (v : Vec) (x : Nat) :
    (emplaceBack v x).1.cap =
      if v.size = v.cap then (if v.size = 0 then 1 else v.size * 2)
      else v.cap := by
  unfold emplaceBack
  split <;> rfl

theorem emplaceBack_size (v : Vec) (x : Nat) :
    (emplaceBack v x).1.size = v.size + 1 := by
  simp [Vec.size, emplaceBack_elems]

theorem emplaceBack_wf (v : Vec) (x : Nat) (hv : v.wf) :
    (emplaceBack v x).1.wf := by
  unfold Vec.wf at *
  rw [emplaceBack_size, emplaceBack_cap]
  by_cases h : v.size = v.cap
  · rw [if_pos h]
    by_cases h0 : v.size = 0
    · rw [if_pos h0]; omega
    · rw [if_neg h0]; omega
  · rw [if_neg h]; omega

theorem reserve_wf (v : Vec) (k : Nat) (hv : v.wf) : (reserve v k).wf := by
  unfold Vec.wf Vec.size at *
  unfold reserve
  split
  · rename_i h
    simpa using Nat.le_trans hv (Nat.le_of_lt h)
  · exact hv

theorem resize_wf (v : Vec) (k : Nat) (hv : v.wf) : (resize v k).wf := by
  unfold Vec.wf Vec.size at *
  unfold resize reserve Vec.size
  split
  · exact hv
  · split
    · rename_i h1 h2
      simp [List.length_take]
      omega
    · rename_i h1 h2
      split <;> rename_i h3 <;>
        simp [List.length_append, List.length_replicate] <;> omega

theorem emplace_cap (v : Vec) (p x : Nat) :
    (emplace v p x).1.cap =
      if p = v.size then (emplaceBack v x).1.cap
      else if v.size ≠ v.cap then v.cap
      else (if v.size = 0 then 1 else v.size * 2) := by
  unfold emplace
  split
  · rfl
  · split <;> rfl

theorem emplace_wf (v : Vec) (p x : Nat) (hp : p ≤ v.size) (hv : v.wf) :
    (emplace v p x).1.wf := by
  unfold Vec.wf at *
  rw [emplace_size v p x hp, emplace_cap]
  by_cases h1 : p = v.size
  · rw [if_pos h1, emplaceBack_cap]
    by_cases h : v.size = v.cap
    · rw [if_pos h]
      by_cases h0 : v.size = 0
      · rw [if_pos h0]; omega
      · rw [if_neg h0]; omega
    · rw [if_neg h]; omega
  · rw [if_neg h1]
    by_cases h2 : v.size ≠ v.cap
    · rw [if_pos h2]; omega
    · rw [if_neg h2]
      by_cases h0 : v.size = 0
      · rw [if_pos h0]; omega
      · rw [if_neg h0]; omega

theorem erase_wf (v : Vec) (p : Nat) (hv : v.wf) : (erase v p).1.wf := by
  unfold erase popBack
  unfold Vec.wf Vec.size at *
  split <;>
    simp [List.length_append, List.length_take, List.length_drop] <;> omega

theorem copyAssignBody_wf (a b : Vec) : (copyAssignBody a b).wf := by
  unfold Vec.wf
  rw [copyAssignBody_size, copyAssignBody_cap]
  split <;> omega

/-! ## Claim theorems -/

/-- C1: the claim says that whenever an element constructor or transfer
throws during the growth path of `Vector::Emplace`, the exception propagates
to the caller and `Size()`, `Capacity()` and the elements are unchanged, the
elements already written to the new storage being destroyed first.  The code
honours this when the new element's construction throws (budget 0) and when
the prefix transfer throws (budget 1), but when the suffix transfer
`[index, size)` throws (budget 2 on a size-2 vector, inserting at index 1),
the catch handler destroys `new_data[0 .. index]` and then falls through —
it lacks a rethrow — so no exception reaches the caller, the gutted new
block is swapped in, `size_` is incremented to 3, `Capacity()` becomes 4,
and the old block is released with the element 20 still live (leaked). -/
theorem emplaceGrow_suffix_exception_swallowed :
    emplaceGrow ⟨[Slot.live 10, Slot.live 20], 2⟩ 1 99 0 =
      { threw := true, dataSlots := [Slot.live 10, Slot.live 20], size := 2,
        released := [Slot.raw, Slot.raw, Slot.raw, Slot.raw] } ∧
    emplaceGrow ⟨[Slot.live 10, Slot.live 20], 2⟩ 1 99 1 =
      { threw := true, dataSlots := [Slot.live 10, Slot.live 20], size := 2,
        released := [Slot.raw, Slot.dead, Slot.raw, Slot.raw] } ∧
    emplaceGrow ⟨[Slot.live 10, Slot.live 20], 2⟩ 1 99 2 =
      { threw := false,
        dataSlots := [Slot.dead, Slot.dead, Slot.raw, Slot.raw],
        size := 3, released := [Slot.dead, Slot.live 20] } ∧
    (emplaceGrow ⟨[Slot.live 10, Slot.live 20], 2⟩ 1 99 2).threw = false ∧
    (emplaceGrow ⟨[Slot.live 10, Slot.live 20], 2⟩ 1 99 2).size ≠ 2 ∧
    (emplaceGrow ⟨[Slot.live 10, Slot.live 20], 2⟩ 1 99 2).cap ≠ 2 := by
  decide

/-- C2: the claim says move-assignment `a = move(b)` gives `a` the contents
of `b`, leaves `b` with `Size() == 0` and `Capacity() == 0`, releases `a`'s
previous contents, and never throws.  In the code
`RawMemory::operator=(RawMemory&&)` is a `Swap`, so `b` keeps `a`'s old block
— here `b.Capacity()` ends up 1, not 0 — and `other.size_` is zeroed after
the swap, so when `b` is destroyed its destructor destroys 0 elements and
`a`'s old element 10 is released while still live: its destructor never
runs.  Evaluated at `a = [10]` (capacity 1), `b = [20, 30]` (capacity 2). -/
theorem moveAssign_keeps_capacity_and_leaks :
    moveAssignS ⟨[Slot.live 10], 1⟩ ⟨[Slot.live 20, Slot.live 30], 2⟩ =
      (⟨[Slot.live 20, Slot.live 30], 2⟩, ⟨[Slot.live 10], 0⟩) ∧
    (moveAssignS ⟨[Slot.live 10], 1⟩
        ⟨[Slot.live 20, Slot.live 30], 2⟩).2.cap = 1 ∧
    vecDestruct (moveAssignS ⟨[Slot.live 10], 1⟩
        ⟨[Slot.live 20, Slot.live 30], 2⟩).2 = [Slot.live 10] := by
  decide

/-- C3: starting from the empty vector, a sequence of `PushBack`/`EmplaceBack`
calls of the values `xs` yields `Size() == xs.length`, the element sequence
`xs`, and indexed access at `i` returns the i-th inserted value; moreover
`EmplaceBack` returns a reference to the newly inserted element (the slot at
the old `size_`, which holds the inserted value). -/
theorem pushSeq_spec (xs : List Nat) (v : Vec) (x i : Nat) :
    (pushSeq xs).size = xs.length ∧
    (pushSeq xs).elems = xs ∧
    (pushSeq xs).get i = xs.getD i 0 ∧
    (emplaceBack v x).2 = v.size ∧
    (emplaceBack v x).1.get (emplaceBack v x).2 = x := by
  have he : (pushSeq xs).elems = xs := by
    unfold pushSeq
    rw [foldl_pushBack_elems]
    rfl
  refine ⟨?_, he, ?_, emplaceBack_idx v x, ?_⟩
  · simp [Vec.size, he]
  · simp [Vec.get, he]
  · rw [emplaceBack_idx]
    unfold Vec.get
    rw [emplaceBack_elems]
    simp [Vec.size, List.getD_eq_getElem?_getD, List.getElem?_concat_length]

/-- C4: a `PushBack`/`EmplaceBack` on a vector with `Size() == Capacity()`
makes the new capacity `2 * Capacity()`, or 1 if the capacity was 0; with
`Size() < Capacity()` the capacity is unchanged. -/
theorem pushBack_capacity_growth (v : Vec) (x : Nat) :
    (v.size = v.cap →
      (emplaceBack v x).1.cap = (if v.cap = 0 then 1 else 2 * v.cap)) ∧
    (v.size < v.cap → (emplaceBack v x).1.cap = v.cap) ∧
    pushBack v x = (emplaceBack v x).1 := by
  refine ⟨?_, ?_, rfl⟩
  · intro h
    rw [emplaceBack_cap, if_pos h, h]
    by_cases h0 : v.cap = 0
    · rw [if_pos h0, if_pos h0]
    · rw [if_neg h0, if_neg h0, Nat.mul_comm]
  · intro h
    rw [emplaceBack_cap, if_neg (Nat.ne_of_lt h)]

/-- C4 witness: a push on `[1, 2]` at capacity 2 doubles the capacity to 4;
a push on `[7]` with capacity 3 leaves the capacity at 3. -/
theorem pushBack_capacity_growth_witness :
    (⟨[1, 2], 2⟩ : Vec).size = (⟨[1, 2], 2⟩ : Vec).cap ∧
    (emplaceBack ⟨[1, 2], 2⟩ 9).1.cap = (if (2 : Nat) = 0 then 1 else 2 * 2) ∧
    (⟨[7], 3⟩ : Vec).size < (⟨[7], 3⟩ : Vec).cap ∧
    (emplaceBack ⟨[7], 3⟩ 9).1.cap = 3 :=
  ⟨by decide, (pushBack_capacity_growth ⟨[1, 2], 2⟩ 9).1 (by decide),
   by decide, (pushBack_capacity_growth ⟨[7], 3⟩ 9).2.1 (by decide)⟩

/-- C5: `Reserve(k)` with `k <= Capacity()` is a no-op (the state is
unchanged, so no element is moved, copied or reconstructed); with
`k > Capacity()` it yields `Capacity() == k` exactly, leaves `Size()`
unchanged and preserves the element order and values. -/
theorem reserve_spec (v : Vec) (k : Nat) :
    (k ≤ v.cap → reserve v k = v) ∧
    (v.cap < k → (reserve v k).cap = k ∧ (reserve v k).size = v.size ∧
      (reserve v k).elems = v.elems) := by
  constructor
  · intro h
    unfold reserve
    split
    · rename_i hgt
      exact absurd hgt (Nat.not_lt.mpr h)
    · rfl
  · intro h
    unfold reserve
    split
    · exact ⟨rfl, rfl, rfl⟩
    · rename_i hng
      exact absurd h hng

/-- C5 witness: `Reserve(2)` on `[1]` with capacity 2 is the identity;
`Reserve(5)` on the same vector yields capacity 5, size 1, elements `[1]`. -/
theorem reserve_spec_witness :
    ((2 : Nat) ≤ (⟨[1], 2⟩ : Vec).cap ∧ reserve ⟨[1], 2⟩ 2 = ⟨[1], 2⟩) ∧
    ((⟨[1], 2⟩ : Vec).cap < 5 ∧ (reserve ⟨[1], 2⟩ 5).cap = 5 ∧
      (reserve ⟨[1], 2⟩ 5).size = 1 ∧ (reserve ⟨[1], 2⟩ 5).elems = [1]) :=
  ⟨⟨by decide, (reserve_spec ⟨[1], 2⟩ 2).1 (by decide)⟩,
   ⟨by decide, (reserve_spec ⟨[1], 2⟩ 5).2 (by decide)⟩⟩

/-- C6: `Insert` at a valid position `p` shifts the subsequent elements one
slot rightward, preserving their relative order, and places the new value at
index `p` (the returned iterator index); `Erase` at `p < Size()` shifts the
subsequent elements one slot leftward and returns an iterator at index `p`;
and `Insert` at `p` immediately followed by `Erase` at `p` restores the
original element sequence. -/
theorem insert_erase_spec (v : Vec) (p x : Nat) (hp : p ≤ v.size) :
    (insert v p x).1.elems = v.elems.take p ++ x :: v.elems.drop p ∧
    (insert v p x).2 = p ∧
    (p < v.size →
      (erase v p).1.elems = v.elems.take p ++ v.elems.drop (p + 1) ∧
      (erase v p).2 = p) ∧
    (erase (insert v p x).1 p).1.elems = v.elems := by
  have h1 : (insert v p x).1.elems = v.elems.take p ++ x :: v.elems.drop p :=
    emplace_elems v p x hp
  refine ⟨h1, emplace_idx v p x, ?_, ?_⟩
  · intro hlt
    unfold erase
    rw [if_neg (Nat.ne_of_lt hlt)]
    exact ⟨rfl, rfl⟩
  · have hsz : (insert v p x).1.size = v.size + 1 := emplace_size v p x hp
    unfold erase
    rw [if_neg (by omega)]
    dsimp only
    rw [h1]
    have hext := take_cons_drop_ext v.elems p x hp
    rw [hext.1, hext.2]
    exact List.take_append_drop p v.elems

/-- C6 witness: on `[1, 2, 3]`, inserting 99 at index 1 and erasing at index
1 restores `[1, 2, 3]`. -/
theorem insert_erase_spec_witness :
    (1 : Nat) ≤ (⟨[1, 2, 3], 4⟩ : Vec).size ∧
    (erase (insert ⟨[1, 2, 3], 4⟩ 1 99).1 1).1.elems = [1, 2, 3] :=
  ⟨by decide, (insert_erase_spec ⟨[1, 2, 3], 4⟩ 1 99 (by decide)).2.2.2⟩

/-- C7: copy-assignment between distinct vectors leaves the destination with
the source's elements and size, and the source unchanged; the capacity of
the destination becomes `other.Size()` when that exceeds the old capacity
(the temporary-copy-and-swap grow path) and is unchanged otherwise (the
storage-reusing path). -/
theorem copyAssign_spec (s : Fin 2 → Vec) (dst src : Fin 2) (h : dst ≠ src) :
    (copyAssignOp s dst src dst).elems = (s src).elems ∧
    (copyAssignOp s dst src dst).size = (s src).size ∧
    (copyAssignOp s dst src dst).cap =
      (if (s dst).cap < (s src).size then (s src).size else (s dst).cap) ∧
    copyAssignOp s dst src src = s src := by
  have e1 : copyAssignOp s dst src dst = copyAssignBody (s dst) (s src) := by
    unfold copyAssignOp
    rw [if_neg h, Function.update_same]
  have e2 : copyAssignOp s dst src src = s src := by
    unfold copyAssignOp
    rw [if_neg h, Function.update_noteq (Ne.symm h)]
  rw [e1, e2]
  exact ⟨copyAssignBody_elems _ _, copyAssignBody_size _ _,
    copyAssignBody_cap _ _, rfl⟩

/-- C7 witness: assigning `[7, 8, 9, 10]` (at cell 1) into `[1, 2]` with
capacity 3 (at cell 0) copies the elements over; the source cell is
untouched. -/
theorem copyAssign_spec_witness :
    ((0 : Fin 2) ≠ (1 : Fin 2)) ∧
    (copyAssignOp
        (fun i => if i = 0 then ⟨[1, 2], 3⟩ else ⟨[7, 8, 9, 10], 4⟩)
        0 1 0).elems = [7, 8, 9, 10] :=
  ⟨by decide,
   (copyAssign_spec
      (fun i => if i = 0 then ⟨[1, 2], 3⟩ else ⟨[7, 8, 9, 10], 4⟩)
      0 1 (by decide)).1⟩

/-- C8: `Resize(k)` at the current size is a no-op; a smaller `k` destroys
the trailing `size - k` elements, keeping the first `k` and the capacity
(shrinking never reallocates); a larger `k` grows the capacity to at least
`k` and value-constructs the new trailing slots; `[1, 2]` resized to 5 holds
`[1, 2, 0, 0, 0]`, and resized back to 1 holds `[1]` with capacity kept. -/
theorem resize_spec (v : Vec) (k : Nat) :
    (k = v.size → resize v k = v) ∧
    (k < v.size → (resize v k).elems = v.elems.take k ∧
      (resize v k).cap = v.cap ∧ (resize v k).size = k) ∧
    (v.size < k →
      (resize v k).elems = v.elems ++ List.replicate (k - v.size) 0 ∧
      (resize v k).cap = max v.cap k ∧ (resize v k).size = k) ∧
    resize ⟨[1, 2], 2⟩ 5 = ⟨[1, 2, 0, 0, 0], 5⟩ ∧
    resize ⟨[1, 2, 0, 0, 0], 5⟩ 1 = ⟨[1], 5⟩ := by
  refine ⟨?_, ?_, ?_, by decide, by decide⟩
  · intro h
    unfold resize
    rw [if_pos h]
  · intro h
    unfold resize
    rw [if_neg (by omega), if_pos h]
    refine ⟨rfl, rfl, ?_⟩
    unfold Vec.size at *
    simp only [List.length_take]
    omega
  · intro h
    have he : (resize v k).elems = v.elems ++ List.replicate (k - v.size) 0 := by
      unfold resize
      rw [if_neg (by omega), if_neg (by omega)]
      show (reserve v k).elems ++ List.replicate (k - v.size) 0 =
        v.elems ++ List.replicate (k - v.size) 0
      unfold reserve
      split <;> rfl
    have hc : (resize v k).cap = max v.cap k := by
      unfold resize
      rw [if_neg (by omega), if_neg (by omega)]
      show (reserve v k).cap = max v.cap k
      unfold reserve
      split <;> rename_i h2
      · show k = max v.cap k
        omega
      · show v.cap = max v.cap k
        omega
    refine ⟨he, hc, ?_⟩
    unfold Vec.size at *
    rw [he]
    simp only [List.length_append, List.length_replicate]
    omega

/-- C8 witness: on `[1, 2]` with capacity 2, `Resize(2)` is the identity,
`Resize(1)` shrinks to `[1]` keeping capacity 2, `Resize(5)` grows to
`[1, 2, 0, 0, 0]` with capacity 5. -/
theorem resize_spec_witness :
    ((2 : Nat) = (⟨[1, 2], 2⟩ : Vec).size ∧
      resize ⟨[1, 2], 2⟩ 2 = ⟨[1, 2], 2⟩) ∧
    ((1 : Nat) < (⟨[1, 2], 2⟩ : Vec).size ∧
      (resize ⟨[1, 2], 2⟩ 1).elems = ([1, 2] : List Nat).take 1 ∧
      (resize ⟨[1, 2], 2⟩ 1).cap = 2 ∧ (resize ⟨[1, 2], 2⟩ 1).size = 1) ∧
    ((⟨[1, 2], 2⟩ : Vec).size < 5 ∧
      (resize ⟨[1, 2], 2⟩ 5).elems = [1, 2] ++ List.replicate 3 0 ∧
      (resize ⟨[1, 2], 2⟩ 5).cap = max 2 5 ∧ (resize ⟨[1, 2], 2⟩ 5).size = 5) :=
  ⟨⟨by decide, (resize_spec ⟨[1, 2], 2⟩ 2).1 (by decide)⟩,
   ⟨by decide, (resize_spec ⟨[1, 2], 2⟩ 1).2.1 (by decide)⟩,
   ⟨by decide, (resize_spec ⟨[1, 2], 2⟩ 5).2.2.1 (by decide)⟩⟩

/-- Whether every slot below index `n` of a block holds a live object: the
liveness half of the container invariant for a vector of size `n`. -/
def isLive : Slot → Bool
  | Slot.live _ => true
  | _ => false

/-- All slots `[0, n)` of `buf` hold live objects. -/
def allLiveBelow (buf : List Slot) (n : Nat) : Bool :=
  (List.range n).all (fun i => isLive (buf.getD i Slot.raw))

/-- C9: the claim that every public operation preserves the invariant —
`0 <= size_ <= Capacity()` with slots `[0, size_)` validly constructed —
fails on the growth path of `Vector::Emplace` for a throwing element type:
the input vector `[10, 20]` satisfies the invariant, but after the suffix
transfer throws and the exception is swallowed (the missing rethrow, see C1)
the vector has `size_ == 3` while the first three slots of its block are two
destroyed objects and one never-constructed slot, so slots `[0, size_)` are
not validly constructed.  (The numeric part `size_ <= Capacity()` does hold
even there: 3 <= 4; and for non-throwing element types the value-level model
preserves the whole invariant across every operation, see
`invariant_preserved`.) -/
theorem invariant_liveness_broken :
    allLiveBelow [Slot.live 10, Slot.live 20] 2 = true ∧
    (emplaceGrow ⟨[Slot.live 10, Slot.live 20], 2⟩ 1 99 2).size = 3 ∧
    allLiveBelow (emplaceGrow ⟨[Slot.live 10, Slot.live 20], 2⟩ 1 99 2).dataSlots
      (emplaceGrow ⟨[Slot.live 10, Slot.live 20], 2⟩ 1 99 2).size = false := by
  decide

/-- Every public operation of the vector preserves the invariant
`0 <= size_ <= Capacity()` in the value-level model (non-throwing element
types): default/sized/copy/move construction, copy and move assignment,
`Reserve`, `Resize`, `PushBack`/`EmplaceBack`, `Emplace`/`Insert`, `Erase`,
`PopBack` and `Swap`. -/
theorem invariant_preserved (v w : Vec) (n p k x : Nat)
    (hv : v.wf) (hw : w.wf) (hp : p ≤ v.size) :
    Vec.empty.wf ∧ (vecOfSize n).wf ∧ (copyCtor w).wf ∧
    (moveCtor w).1.wf ∧ (moveCtor w).2.wf ∧
    (copyAssignBody v w).wf ∧
    (moveAssignBody v w).1.wf ∧ (moveAssignBody v w).2.wf ∧
    (reserve v k).wf ∧ (resize v k).wf ∧
    (pushBack v x).wf ∧ (emplaceBack v x).1.wf ∧
    (emplace v p x).1.wf ∧ (insert v p x).1.wf ∧ (erase v p).1.wf ∧
    (popBack v).wf ∧ (swapVec v w).1.wf ∧ (swapVec v w).2.wf := by
  refine ⟨Nat.zero_le _, ?_, ?_, hw, Nat.zero_le _, copyAssignBody_wf v w,
    hw, Nat.zero_le _, reserve_wf v k hv, resize_wf v k hv,
    emplaceBack_wf v x hv, emplaceBack_wf v x hv,
    emplace_wf v p x hp hv, emplace_wf v p x hp hv, erase_wf v p hv,
    ?_, hw, hv⟩
  · unfold Vec.wf vecOfSize Vec.size
    simp
  · unfold Vec.wf copyCtor Vec.size
    exact Nat.le_refl _
  · unfold Vec.wf Vec.size at hv
    unfold Vec.wf popBack Vec.size
    simp only [List.length_take]
    omega

/-- Concrete instantiation of `invariant_preserved` at `v = [1, 2]` with
capacity 3, `w = [5]` with capacity 2, `n = 2`, `p = 1`, `k = 4`, `x = 9`. -/
theorem invariant_preserved_witness :
    (⟨[1, 2], 3⟩ : Vec).wf ∧ (⟨[5], 2⟩ : Vec).wf ∧
    (1 : Nat) ≤ (⟨[1, 2], 3⟩ : Vec).size ∧
    (Vec.empty.wf ∧ (vecOfSize 2).wf ∧ (copyCtor ⟨[5], 2⟩).wf ∧
      (moveCtor ⟨[5], 2⟩).1.wf ∧ (moveCtor ⟨[5], 2⟩).2.wf ∧
      (copyAssignBody ⟨[1, 2], 3⟩ ⟨[5], 2⟩).wf ∧
      (moveAssignBody ⟨[1, 2], 3⟩ ⟨[5], 2⟩).1.wf ∧
      (moveAssignBody ⟨[1, 2], 3⟩ ⟨[5], 2⟩).2.wf ∧
      (reserve ⟨[1, 2], 3⟩ 4).wf ∧ (resize ⟨[1, 2], 3⟩ 4).wf ∧
      (pushBack ⟨[1, 2], 3⟩ 9).wf ∧ (emplaceBack ⟨[1, 2], 3⟩ 9).1.wf ∧
      (emplace ⟨[1, 2], 3⟩ 1 9).1.wf ∧ (insert ⟨[1, 2], 3⟩ 1 9).1.wf ∧
      (erase ⟨[1, 2], 3⟩ 1).1.wf ∧ (popBack ⟨[1, 2], 3⟩).wf ∧
      (swapVec ⟨[1, 2], 3⟩ ⟨[5], 2⟩).1.wf ∧
      (swapVec ⟨[1, 2], 3⟩ ⟨[5], 2⟩).2.wf) :=
  ⟨by decide, by decide, by decide,
   invariant_preserved ⟨[1, 2], 3⟩ ⟨[5], 2⟩ 2 1 4 9
     (by decide) (by decide) (by decide)⟩

/-- C10: self-assignment is a no-op: both `operator=(const Vector&)` and
`operator=(Vector&&)` first compare `this != &other`, so assigning a cell of
the store to itself leaves the whole store (size, capacity and elements of
every vector) unchanged. -/
theorem self_assign_noop (s : Fin 2 → Vec) (i : Fin 2) :
    copyAssignOp s i i = s ∧ moveAssignOp s i i = s := by
  unfold copyAssignOp moveAssignOp
  exact ⟨if_pos rfl, if_pos rfl⟩

end AdvancedVector
